import Mathlib

/-!
A shallow embedding of the ray-tracing engine (src/main.rs, src/object.rs):
vectors, materials, spheres, lights, ray-sphere intersection, the scene
intersector, the recursive shader `cast_ray`, and the frame driver `render`.

Rust `f64` values are modelled as rationals (`ℚ`).  The transcendental
floating-point primitives the code calls (`f64::sqrt`, `f64::tan`,
`f64::powf`) are not rational-valued; they are passed in as an explicit
`FloatOps` record of functions, so every definition below is a function of
the same inputs as the Rust code plus these primitives.  For concrete
evaluation, `ratSqrt` gives the exact square root on perfect squares.
-/

/-- The `Vector3<f64>` of nalgebra, restricted to the operations the code
uses: componentwise addition and subtraction, scalar multiplication, dot
product, norm and normalization. -/
structure Vec3 where
  x : ℚ
  y : ℚ
  z : ℚ
deriving DecidableEq

instance : Add Vec3 := ⟨fun a b => ⟨a.x + b.x, a.y + b.y, a.z + b.z⟩⟩

instance : Sub Vec3 := ⟨fun a b => ⟨a.x - b.x, a.y - b.y, a.z - b.z⟩⟩

instance : HMul Vec3 ℚ Vec3 := ⟨fun v c => ⟨v.x * c, v.y * c, v.z * c⟩⟩

/-- Rust `Vector3::default()`: the zero vector. -/
def Vec3.zero : Vec3 := ⟨0, 0, 0⟩

/-- nalgebra dot product. -/
def Vec3.dot (a b : Vec3) : ℚ := a.x * b.x + a.y * b.y + a.z * b.z

/-- The floating-point primitives used by the code, passed explicitly:
`f64::sqrt`, `f64::tan` and `f64::powf`. -/
structure FloatOps where
  sqrt : ℚ → ℚ
  tan : ℚ → ℚ
  powf : ℚ → ℚ → ℚ

/-- nalgebra `v.norm()`: square root of the dot product with itself. -/
def Vec3.norm (F : FloatOps) (v : Vec3) : ℚ := F.sqrt (v.dot v)

/-- nalgebra `v.normalize()`: the vector divided componentwise by its norm. -/
def Vec3.normalize (F : FloatOps) (v : Vec3) : Vec3 :=
  ⟨v.x / v.norm F, v.y / v.norm F, v.z / v.norm F⟩

/-- Largest `k ≤ n` with `k * k ≤ n`, by a structurally recursive scan
(kernel-reducible, unlike `Nat.sqrt`). -/
def natSqrt (n : ℕ) : ℕ :=
  (List.range (n + 1)).foldl (fun acc k => if k * k ≤ n then k else acc) 0

/-- Exact rational square root used to instantiate `FloatOps.sqrt` on
concrete inputs whose numerator and denominator are perfect squares. -/
def ratSqrt (q : ℚ) : ℚ := (natSqrt q.num.toNat : ℚ) / (natSqrt q.den : ℚ)

/-- Modelled from the spec: `Material` as used by `main.rs` — diffuse
color, a three-weight albedo and a Phong specular exponent.  The
`object.rs` file under `src/` only declares the `diffuse_color` field; the
`albedo` and `specular_exponent` fields read by `cast_ray` (and the
three-argument constructor `Material::new` that `main` calls) are missing
from the sources, so they are taken from the spec's data model
(§3 Material). -/
structure Material where
  diffuse_color : Vec3
  albedo : Vec3
  specular_exponent : ℚ
deriving DecidableEq

/-- Modelled from the spec: `Material::default()` used by
`scene_intersect` to initialize the hit record.  The spec leaves the
material of a missed intersection unspecified (§4.1), and the `Default`
implementation is missing from the sources; all-zero fields stand in for
it and no claim depends on its value. -/
def defaultMaterial : Material := ⟨Vec3.zero, Vec3.zero, 0⟩

/-- The `Sphere` struct from object.rs. -/
structure Sphere where
  center : Vec3
  radius : ℚ
  material : Material
deriving DecidableEq

/-- The `Light` struct from object.rs. -/
structure Light where
  position : Vec3
  intensity : ℚ
deriving DecidableEq

/-- Function `Sphere::ray_intersect` from object.rs: the geometric method with the
in-out parameter `t0` modelled as an explicit argument and the returned
pair `(bool, f64)`. -/
def Sphere.ray_intersect (F : FloatOps) (s : Sphere) (ray_origin dir : Vec3)
    (t0 : ℚ) : Bool × ℚ :=
  let l : Vec3 := s.center - ray_origin
  let tca : ℚ := l.dot dir
  let d2 : ℚ := l.dot l - tca * tca
  if d2 > s.radius * s.radius then (false, t0)
  else
    let thc : ℚ := F.sqrt (s.radius * s.radius - d2)
    let t0a : ℚ := tca - thc
    let t1 : ℚ := tca + thc
    let t0b : ℚ := if t0a < 0 then t1 else t0a
    if t0b < 0 then (false, t0b) else (true, t0b)

/-- The constant `std::f64::MAX`, exactly: `(2^53 - 1) * 2^971`, written as an integer
literal so it evaluates by kernel reduction (`f64MAX_eq` checks the
value). -/
def f64MAX : ℚ :=
  Rat.mk' 179769313486231570814527423731704356798070567525844996598917476803157260780028538760589558632766878171540458953514382464234321326889464182768467546703537516986049910576551282076245490090389328944075868508455133942304583236903222948165808559332123348274797826204144723168738177180919299881250404026184124858368
    1 one_ne_zero (Nat.coprime_one_right _)

/-- The constant `BACKGROUND_COLOR` from main.rs: `(0.7, 0.8, 1.0)`. -/
def BACKGROUND_COLOR : Vec3 := ⟨7/10, 4/5, 1⟩

/-- The constant `MAX_RECURSION_DEPTH` from main.rs. -/
def MAX_RECURSION_DEPTH : ℕ := 6

/-- The state threaded through `scene_intersect`'s loop:
`(spheres_dist, point, n, material)`. -/
def sceneStep (F : FloatOps) (ray_origin ray_direction : Vec3)
    (st : ℚ × Vec3 × Vec3 × Material) (sphere : Sphere) :
    ℚ × Vec3 × Vec3 × Material :=
  let r := sphere.ray_intersect F ray_origin ray_direction 0
  if r.1 ∧ r.2 < st.1 then
    (r.2, ray_origin + ray_direction * r.2,
      (ray_origin + ray_direction * r.2 - sphere.center).normalize F,
      sphere.material)
  else st

/-- The loop of `scene_intersect` over all spheres, starting from the
defaults `(std::f64::MAX, Vector3::default(), Vector3::default(),
Material::default())`. -/
def sceneFold (F : FloatOps) (ray_origin ray_direction : Vec3)
    (spheres : List Sphere) : ℚ × Vec3 × Vec3 × Material :=
  spheres.foldl (sceneStep F ray_origin ray_direction)
    (f64MAX, Vec3.zero, Vec3.zero, defaultMaterial)

/-- The value `scene_intersect` wraps in `Some(..)`:
`(spheres_dist < 1000.0, point, n, material)`. -/
def scene_hit (F : FloatOps) (ray_origin ray_direction : Vec3)
    (spheres : List Sphere) : Bool × Vec3 × Vec3 × Material :=
  let st := sceneFold F ray_origin ray_direction spheres
  (decide (st.1 < 1000), st.2.1, st.2.2.1, st.2.2.2)

/-- Function `scene_intersect` from main.rs: always `Some`, immediately unwrapped
by its callers. -/
def scene_intersect (F : FloatOps) (ray_origin ray_direction : Vec3)
    (spheres : List Sphere) : Option (Bool × Vec3 × Vec3 × Material) :=
  some (scene_hit F ray_origin ray_direction spheres)

/-- Function `reflect` from main.rs: `i - n * 2.0 * (i.dot(&n))`. -/
def reflect (i n : Vec3) : Vec3 := i - (n * (2 : ℚ)) * (i.dot n)

/-- Function `nalgebra::clamp(val, lo, hi)`. -/
def clamp (val lo hi : ℚ) : ℚ := if val < lo then lo else if hi < val then hi else val

/-- One iteration of `cast_ray`'s loop over the lights, updating the pair
`(diffuse_light_intensity, specular_light_intensity)`.  A light is skipped
(`continue`) when the shadow ray from the epsilon-biased origin hits the
scene strictly closer than the light. -/
def lightStep (F : FloatOps) (spheres : List Sphere) (point n direction : Vec3)
    (material : Material) (acc : ℚ × ℚ) (light : Light) : ℚ × ℚ :=
  let light_direction := (light.position - point).normalize F
  let light_distance := (light.position - point).norm F
  let shadow_origin :=
    if light_direction.dot n < 0 then point - n * ((1 : ℚ)/1000)
    else point + n * ((1 : ℚ)/1000)
  let sh := scene_hit F shadow_origin light_direction spheres
  if sh.1 ∧ (sh.2.1 - shadow_origin).norm F < light_distance then acc
  else
    let max_light := clamp (light_direction.dot n) 0 1
    let power := clamp ((reflect light_direction n).dot direction) 0 1
    (acc.1 + light.intensity * max_light,
     acc.2 + F.powf power material.specular_exponent * light.intensity)

/-- Function `cast_ray` from main.rs, with an explicit structural fuel so the
definition is executable; `cast_ray` below supplies fuel
`MAX_RECURSION_DEPTH + 2`, which `cast_ray_fuel_irrel` proves is enough to
make the fuel invisible: the depth check `depth > MAX_RECURSION_DEPTH`
always fires before the fuel runs out. -/
def cast_ray_fuel (F : FloatOps) (spheres : List Sphere) (lights : List Light) :
    ℕ → Vec3 → Vec3 → ℕ → Vec3
  | 0, _, _, _ => BACKGROUND_COLOR
  | fuel + 1, origin, direction, depth =>
    let r := scene_hit F origin direction spheres
    if ¬ r.1 ∨ MAX_RECURSION_DEPTH < depth then BACKGROUND_COLOR
    else
      let point := r.2.1
      let n := r.2.2.1
      let material := r.2.2.2
      let reflect_direction := reflect direction n
      let reflect_origin :=
        if reflect_direction.dot n < 0 then point - n * ((1 : ℚ)/1000)
        else point + n * ((1 : ℚ)/1000)
      let reflect_color :=
        cast_ray_fuel F spheres lights fuel reflect_origin reflect_direction (depth + 1)
      let acc := lights.foldl (lightStep F spheres point n direction material) (0, 0)
      material.diffuse_color * acc.1 * material.albedo.x
        + (⟨1, 1, 1⟩ : Vec3) * acc.2 * material.albedo.y
        + reflect_color * material.albedo.z

/-- Function `cast_ray` from main.rs. -/
def cast_ray (F : FloatOps) (origin direction : Vec3) (spheres : List Sphere)
    (lights : List Light) (depth : ℕ) : Vec3 :=
  cast_ray_fuel F spheres lights (MAX_RECURSION_DEPTH + 2) origin direction depth

/-- The camera ray direction for pixel `(i, j)` in `render`:
`normalize(Vector3::new(x, y, -1.0))` with the x and y of main.rs. -/
def camDirection (F : FloatOps) (width height : ℕ) (fov : ℚ) (i j : ℕ) : Vec3 :=
  let x : ℚ := (2 * ((i : ℚ) + 1/2) / (width : ℚ) - 1) * F.tan (fov / 2)
    * (width : ℚ) / (height : ℚ)
  let y : ℚ := -(2 * ((j : ℚ) + 1/2) / (height : ℚ) - 1) * F.tan (fov / 2)
  Vec3.normalize F ⟨x, y, -1⟩

/-- Rust `x as u8` for a non-NaN `f64` value: truncation toward zero,
saturating at the bounds of `u8` (Rust float-to-int casts saturate). -/
def f64toU8 (v : ℚ) : ℕ := if v < 0 then 0 else min 255 (Rat.floor v).toNat

/-- The per-channel conversion in `render`: `(c * 255.0) as u8`. -/
def quantizeChannel (c : ℚ) : ℕ := f64toU8 (c * 255)

/-- One write of `render`'s output loop: store the three quantized
channels of task result `(i, j, color)` at byte offsets
`(i + j*width)*3 + {0,1,2}`. -/
def writePixel (width : ℕ) (buffer : List ℕ) (r : ℕ × ℕ × Vec3) : List ℕ :=
  let index := (r.1 + r.2.1 * width) * 3
  ((buffer.set index (quantizeChannel r.2.2.x)).set (index + 1)
      (quantizeChannel r.2.2.y)).set (index + 2) (quantizeChannel r.2.2.z)

/-- The ordered list of `(i, j, color)` triples produced by `render`'s
task loop (`join_all` keeps the order the tasks were pushed in: row `j`
outer, column `i` inner, each color from `cast_ray` at depth 0 from the
origin). -/
def renderTasks (F : FloatOps) (width height : ℕ) (fov : ℚ)
    (spheres : List Sphere) (lights : List Light) : List (ℕ × ℕ × Vec3) :=
  (List.range height).flatMap fun j =>
    (List.range width).map fun i =>
      (i, j, cast_ray F Vec3.zero (camDirection F width height fov i j) spheres lights 0)

/-- Function `render` from main.rs: a `width*height*3` byte buffer, zero-filled
then written once per pixel from the task results. -/
def render (F : FloatOps) (width height : ℕ) (fov : ℚ)
    (spheres : List Sphere) (lights : List Light) : List ℕ :=
  (renderTasks F width height fov spheres lights).foldl (writePixel width)
    (List.replicate (width * height * 3) 0)

/-- The candidate-selection policy as the spec words it (§4.1): with
`tca` the projection of center-minus-origin onto the direction and `d2`
the perpendicular-distance-squared, no hit when `d2 > radius²`; otherwise
with `t0 = tca - thc` and `t1 = tca + thc`, distance `t0` if `t0` is
non-negative, else `t1` if `t1` is non-negative, else no hit.  The second
component of a no-hit result is left as the code leaves it, since the
spec does not constrain it. -/
def geometricSelect (F : FloatOps) (s : Sphere) (o d : Vec3) (t0in : ℚ) : Bool × ℚ :=
  let l : Vec3 := s.center - o
  let tca : ℚ := l.dot d
  let d2 : ℚ := l.dot l - tca * tca
  let thc : ℚ := F.sqrt (s.radius * s.radius - d2)
  let t0 : ℚ := tca - thc
  let t1 : ℚ := tca + thc
  if d2 > s.radius * s.radius then (false, t0in)
  else if 0 ≤ t0 then (true, t0)
  else if 0 ≤ t1 then (true, t1)
  else (false, t1)

/-- The spec's occlusion condition (§4.2 step 3), written from the spec's
words for comparison with `lightStep`: the shadow ray cast from the
epsilon-biased origin toward the light hits some sphere strictly closer
than the light itself — the distance from the shadow origin to the shadow
hit is strictly less than the distance from the hit point to the light. -/
def occludedSpec (F : FloatOps) (spheres : List Sphere) (point n : Vec3)
    (light : Light) : Bool :=
  let lightDirection := (light.position - point).normalize F
  let shadowOrigin :=
    if lightDirection.dot n < 0 then point - n * ((1 : ℚ)/1000)
    else point + n * ((1 : ℚ)/1000)
  let record := scene_hit F shadowOrigin lightDirection spheres
  record.1 && decide ((record.2.1 - shadowOrigin).norm F
    < (light.position - point).norm F)

/-- Concrete floating-point primitives for evaluating the development on
inputs whose intermediate values are exact: exact square roots, and
arbitrary stand-ins for `tan` and `powf` (never reached on the inputs
below). -/
def exactOps : FloatOps := ⟨ratSqrt, fun _ => 0, fun _ _ => 0⟩

/-- The ivory material of main.rs's sample scene. -/
def ivoryMaterial : Material := ⟨⟨3/5, 3/10, 1/10⟩, ⟨2/5, 2/5, 3/10⟩, 50⟩

/-- The red-rubber material of main.rs's sample scene. -/
def rubberMaterial : Material := ⟨⟨9/10, 1/10, 0⟩, ⟨3/10, 1/10, 1/10⟩, 10⟩

/-- A unit ray direction along negative z, as the camera rays use. -/
def minusZ : Vec3 := ⟨0, 0, -1⟩

/-- A sphere one unit of radius centered five units down the -z axis: the
ray from the origin along `minusZ` hits it at distance 4. -/
def sphereA : Sphere := ⟨⟨0, 0, -5⟩, 1, ivoryMaterial⟩

/-- A second sphere, six units down the -z axis with radius 2: the same
ray also hits it at distance 4, equidistant with `sphereA`. -/
def sphereB : Sphere := ⟨⟨0, 0, -6⟩, 2, rubberMaterial⟩

/-- A degenerate sphere with negative radius, used to evaluate
`ray_intersect` on `radius ≤ 0`. -/
def sphereNegRadius : Sphere := ⟨⟨0, 0, -5⟩, -1, ivoryMaterial⟩

/-! ## Helper lemmas -/

theorem f64MAX_eq : f64MAX = (2 ^ 53 - 1) * 2 ^ 971 := by
  norm_num [f64MAX, Rat.mk'.injEq]

theorem f64MAX_not_lt_1000 : ¬ (f64MAX < 1000) := by
  rw [f64MAX_eq]; norm_num

theorem sceneStep_dist_le (F : FloatOps) (o d : Vec3)
    (st : ℚ × Vec3 × Vec3 × Material) (s : Sphere) :
    (sceneStep F o d st s).1 ≤ st.1 := by
  simp only [sceneStep]
  split
  · next h => exact le_of_lt h.2
  · exact le_refl _

theorem sceneFold_go_dist_le (F : FloatOps) (o d : Vec3) (l : List Sphere)
    (st : ℚ × Vec3 × Vec3 × Material) :
    (l.foldl (sceneStep F o d) st).1 ≤ st.1 := by
  induction l generalizing st with
  | nil => exact le_refl _
  | cons a l ih =>
    rw [List.foldl_cons]
    exact le_trans (ih (sceneStep F o d st a)) (sceneStep_dist_le F o d st a)

theorem sceneFold_go_dist_le_mem (F : FloatOps) (o d : Vec3) (l : List Sphere)
    (st : ℚ × Vec3 × Vec3 × Material) (s : Sphere) (t : ℚ)
    (hmem : s ∈ l) (hs : s.ray_intersect F o d 0 = (true, t)) :
    (l.foldl (sceneStep F o d) st).1 ≤ t := by
  induction l generalizing st with
  | nil => cases hmem
  | cons a l ih =>
    rw [List.foldl_cons]
    rcases List.mem_cons.mp hmem with rfl | hmem2
    · refine le_trans (sceneFold_go_dist_le F o d l _) ?_
      simp only [sceneStep, hs]
      by_cases hlt : t < st.1
      · simp [hlt]
      · simp [hlt]
        exact le_of_not_lt hlt
    · exact ih _ hmem2

theorem sceneStep_dist_lt_iff (F : FloatOps) (o d : Vec3)
    (st : ℚ × Vec3 × Vec3 × Material) (s : Sphere) (c : ℚ) :
    (sceneStep F o d st s).1 < c ↔
      st.1 < c ∨ ∃ t, s.ray_intersect F o d 0 = (true, t) ∧ t < c := by
  simp only [sceneStep]
  by_cases hok : (s.ray_intersect F o d 0).1 = true
  · by_cases hlt : (s.ray_intersect F o d 0).2 < st.1
    · rw [if_pos ⟨hok, hlt⟩]
      constructor
      · intro h
        refine Or.inr ⟨(s.ray_intersect F o d 0).2, ?_, h⟩
        rw [← hok]
      · rintro (h | ⟨t, ht, htc⟩)
        · exact lt_trans hlt h
        · have h2 : (s.ray_intersect F o d 0).2 = t := congrArg Prod.snd ht
          rw [h2]
          exact htc
    · rw [if_neg (by rintro ⟨-, h2⟩; exact hlt h2)]
      constructor
      · intro h
        exact Or.inl h
      · rintro (h | ⟨t, ht, htc⟩)
        · exact h
        · have h2 : (s.ray_intersect F o d 0).2 = t := congrArg Prod.snd ht
          refine lt_of_le_of_lt (le_of_not_lt ?_) htc
          rw [h2] at hlt
          exact hlt
  · rw [if_neg (by rintro ⟨h1, -⟩; exact hok h1)]
    constructor
    · intro h
      exact Or.inl h
    · rintro (h | ⟨t, ht, htc⟩)
      · exact h
      · exact absurd (congrArg Prod.fst ht) hok

theorem sceneFold_go_dist_lt_iff (F : FloatOps) (o d : Vec3) (l : List Sphere)
    (st : ℚ × Vec3 × Vec3 × Material) (c : ℚ) :
    (l.foldl (sceneStep F o d) st).1 < c ↔
      st.1 < c ∨ ∃ s ∈ l, ∃ t, s.ray_intersect F o d 0 = (true, t) ∧ t < c := by
  induction l generalizing st with
  | nil => simp
  | cons a l ih =>
    rw [List.foldl_cons, ih, sceneStep_dist_lt_iff]
    constructor
    · rintro ((h | ⟨t, ht, htc⟩) | ⟨s, hs, t, ht, htc⟩)
      · exact Or.inl h
      · exact Or.inr ⟨a, List.mem_cons_self a l, t, ht, htc⟩
      · exact Or.inr ⟨s, List.mem_cons_of_mem a hs, t, ht, htc⟩
    · rintro (h | ⟨s, hs, t, ht, htc⟩)
      · exact Or.inl (Or.inl h)
      · rcases List.mem_cons.mp hs with rfl | hs2
        · exact Or.inl (Or.inr ⟨t, ht, htc⟩)
        · exact Or.inr ⟨s, hs2, t, ht, htc⟩

/-! ## Claim theorems -/

/-- C7: `scene_intersect` reports a valid hit (first component `true`) if
and only if some sphere of the scene has an accepted intersection distance
strictly below the fixed world-horizon cutoff of 1000; a sphere
intersected only at or beyond that distance (or not at all) produces no
valid hit.  The minimum accepted distance is below 1000 exactly when some
accepted distance is, so the statement quantifies over the spheres. -/
theorem scene_intersect_horizon (F : FloatOps) (o d : Vec3) (spheres : List Sphere) :
    (scene_hit F o d spheres).1 = true ↔
      ∃ s ∈ spheres, ∃ t, s.ray_intersect F o d 0 = (true, t) ∧ t < 1000 := by
  simp only [scene_hit, sceneFold, decide_eq_true_eq]
  rw [sceneFold_go_dist_lt_iff]
  have h0 : ¬ ((f64MAX, Vec3.zero, Vec3.zero, defaultMaterial).1 < (1000 : ℚ)) :=
    f64MAX_not_lt_1000
  simp only [h0, false_or]

/-- C3: `scene_intersect` keeps the minimum accepted distance under a
strict `<` comparison: the final tracked distance is a lower bound of
every accepted distance, and for a scene of two spheres that both accept
the same distance `t` the returned record carries the point, the normal
and the material of the first sphere.  The hypothesis `t < f64MAX` says
the tie happens at a representable distance (below the `f64::MAX`
sentinel the loop starts from). -/
theorem scene_intersect_min_first (F : FloatOps) (o d : Vec3) (spheres : List Sphere)
    (a b : Sphere) (t : ℚ) (ht : t < f64MAX)
    (ha : a.ray_intersect F o d 0 = (true, t))
    (hb : b.ray_intersect F o d 0 = (true, t)) :
    (∀ s ∈ spheres, ∀ u, s.ray_intersect F o d 0 = (true, u) →
        (sceneFold F o d spheres).1 ≤ u)
    ∧ scene_hit F o d [a, b]
        = (decide (t < 1000), o + d * t, (o + d * t - a.center).normalize F,
            a.material) := by
  constructor
  · intro s hs u hu
    exact sceneFold_go_dist_le_mem F o d spheres _ s u hs hu
  · have h1 : sceneStep F o d (f64MAX, Vec3.zero, Vec3.zero, defaultMaterial) a
        = (t, o + d * t, (o + d * t - a.center).normalize F, a.material) := by
      simp only [sceneStep, ha]
      rw [if_pos ⟨trivial, ht⟩]
    have h2 : sceneStep F o d
          (t, o + d * t, (o + d * t - a.center).normalize F, a.material) b
        = (t, o + d * t, (o + d * t - a.center).normalize F, a.material) := by
      simp only [sceneStep, hb]
      rw [if_neg (by rintro ⟨-, h⟩; exact absurd h (lt_irrefl t))]
    unfold scene_hit sceneFold
    rw [List.foldl_cons, List.foldl_cons, List.foldl_nil, h1, h2]

/-- C2: for a unit direction, `ray_intersect` implements exactly the
spec's geometric candidate-selection policy `geometricSelect`: no hit when
`d2 > radius²`, else `t0 = tca - thc` if non-negative, else
`t1 = tca + thc` if non-negative, else no hit. -/
theorem ray_intersect_geometric (F : FloatOps) (s : Sphere) (o d : Vec3)
    (t0in : ℚ) (hunit : d.dot d = 1) :
    s.ray_intersect F o d t0in = geometricSelect F s o d t0in := by
  simp only [Sphere.ray_intersect, geometricSelect]
  by_cases h1 : (s.center - o).dot (s.center - o)
      - (s.center - o).dot d * (s.center - o).dot d > s.radius * s.radius
  · rw [if_pos h1, if_pos h1]
  · rw [if_neg h1, if_neg h1]
    by_cases h2 : 0 ≤ (s.center - o).dot d
        - F.sqrt (s.radius * s.radius - ((s.center - o).dot (s.center - o)
          - (s.center - o).dot d * (s.center - o).dot d))
    · rw [if_pos h2, if_neg (not_lt.mpr h2), if_neg (not_lt.mpr h2)]
    · rw [if_neg h2, if_pos (lt_of_not_le (fun h => h2 h))]
      by_cases h3 : 0 ≤ (s.center - o).dot d
          + F.sqrt (s.radius * s.radius - ((s.center - o).dot (s.center - o)
            - (s.center - o).dot d * (s.center - o).dot d))
      · rw [if_pos h3, if_neg (not_lt.mpr h3)]
      · rw [if_neg h3, if_pos (lt_of_not_le (fun h => h3 h))]

set_option maxRecDepth 40000 in
unseal Rat.mul Rat.add Rat.sub Rat.inv in
/-- C9 counterexample: the sphere of radius `-1` centered at `(0,0,-5)`
has `radius ≤ 0`, yet `ray_intersect` from the origin along `(0,0,-1)`
(a unit direction) reports a hit at distance 4: the claim that a sphere
with non-positive radius never intersects is false on the code. -/
theorem negative_radius_hits :
    sphereNegRadius.radius ≤ 0
    ∧ minusZ.dot minusZ = 1
    ∧ Sphere.ray_intersect exactOps sphereNegRadius Vec3.zero minusZ 0 = (true, 4) := by
  decide

/-- C9 amended: `ray_intersect` never rejects a sphere for its sign of
radius — it depends on the radius only through its square, so a sphere of
radius `r ≤ 0` intersects exactly as the sphere of radius `-r = |r|`
does; in particular it can report a hit (see `negative_radius_hits`). -/
theorem ray_intersect_radius_sign (F : FloatOps) (s : Sphere) (o d : Vec3)
    (t0 : ℚ) :
    Sphere.ray_intersect F ⟨s.center, -s.radius, s.material⟩ o d t0
      = s.ray_intersect F o d t0 := by
  simp only [Sphere.ray_intersect, neg_mul_neg]

set_option maxRecDepth 40000 in
unseal Rat.mul Rat.add Rat.sub Rat.inv in
/-- Witness for C3: along `(0,0,-1)` from the origin, `sphereA` (radius 1
at depth 5) and `sphereB` (radius 2 at depth 6) both accept distance 4,
and the scene record of `[sphereA, sphereB]` carries `sphereA`'s point,
normal and material. -/
theorem scene_intersect_min_first_witness :
    (4 : ℚ) < f64MAX
    ∧ Sphere.ray_intersect exactOps sphereA Vec3.zero minusZ 0 = (true, 4)
    ∧ Sphere.ray_intersect exactOps sphereB Vec3.zero minusZ 0 = (true, 4)
    ∧ scene_hit exactOps Vec3.zero minusZ [sphereA, sphereB]
        = (decide ((4 : ℚ) < 1000), Vec3.zero + minusZ * (4 : ℚ),
            (Vec3.zero + minusZ * (4 : ℚ) - sphereA.center).normalize exactOps,
            sphereA.material) :=
  ⟨by decide, by decide, by decide,
    (scene_intersect_min_first exactOps Vec3.zero minusZ [sphereA, sphereB]
      sphereA sphereB 4 (by decide) (by decide) (by decide)).2⟩

set_option maxRecDepth 40000 in
unseal Rat.mul Rat.add Rat.sub Rat.inv in
/-- Witness for C2: the unit ray `(0,0,-1)` from the origin against
`sphereA`. -/
theorem ray_intersect_geometric_witness :
    Vec3.dot minusZ minusZ = 1
    ∧ Sphere.ray_intersect exactOps sphereA Vec3.zero minusZ 0
        = geometricSelect exactOps sphereA Vec3.zero minusZ 0 :=
  ⟨by decide, ray_intersect_geometric exactOps sphereA Vec3.zero minusZ 0 (by decide)⟩

/-- Any two sufficient fuels give `cast_ray_fuel` the same value: the
depth check `depth > MAX_RECURSION_DEPTH` returns before fuel
`MAX_RECURSION_DEPTH + 2 - depth` is consumed. -/
theorem cast_ray_fuel_congr (F : FloatOps) (spheres : List Sphere)
    (lights : List Light) :
    ∀ f1 f2 o d depth, MAX_RECURSION_DEPTH + 2 ≤ f1 + depth →
      MAX_RECURSION_DEPTH + 2 ≤ f2 + depth →
      cast_ray_fuel F spheres lights f1 o d depth
        = cast_ray_fuel F spheres lights f2 o d depth := by
  intro f1
  induction f1 with
  | zero =>
    intro f2 o d depth h1 h2
    have hd : MAX_RECURSION_DEPTH < depth := by
      simp only [MAX_RECURSION_DEPTH] at h1 ⊢
      omega
    cases f2 with
    | zero => rfl
    | succ b =>
      simp only [cast_ray_fuel]
      rw [if_pos (Or.inr hd)]
  | succ a ih =>
    intro f2 o d depth h1 h2
    cases f2 with
    | zero =>
      have hd : MAX_RECURSION_DEPTH < depth := by
        simp only [MAX_RECURSION_DEPTH] at h2 ⊢
        omega
      simp only [cast_ray_fuel]
      rw [if_pos (Or.inr hd)]
    | succ b =>
      by_cases hcond : ¬ (scene_hit F o d spheres).1 ∨ MAX_RECURSION_DEPTH < depth
      · simp only [cast_ray_fuel]
        rw [if_pos hcond, if_pos hcond]
      · simp only [cast_ray_fuel]
        rw [if_neg hcond, if_neg hcond]
        rw [ih b _ _ (depth + 1) (by omega) (by omega)]

/-- C1: `cast_ray` returns exactly `BACKGROUND_COLOR` whenever the depth
argument is strictly greater than `MAX_RECURSION_DEPTH` (= 6), regardless
of the scene, and also whenever the primary intersection reports no
hit. -/
theorem cast_ray_background (F : FloatOps) (o d : Vec3) (spheres : List Sphere)
    (lights : List Light) (depth : ℕ) :
    (MAX_RECURSION_DEPTH < depth →
      cast_ray F o d spheres lights depth = BACKGROUND_COLOR)
    ∧ ((scene_hit F o d spheres).1 = false →
      cast_ray F o d spheres lights depth = BACKGROUND_COLOR) := by
  constructor
  · intro h
    show cast_ray_fuel F spheres lights (MAX_RECURSION_DEPTH + 1 + 1) o d depth
      = BACKGROUND_COLOR
    simp only [cast_ray_fuel]
    rw [if_pos (Or.inr h)]
  · intro h
    show cast_ray_fuel F spheres lights (MAX_RECURSION_DEPTH + 1 + 1) o d depth
      = BACKGROUND_COLOR
    simp only [cast_ray_fuel]
    rw [if_pos (Or.inl (by simp [h]))]

set_option maxRecDepth 40000 in
unseal Rat.mul Rat.add Rat.sub Rat.inv in
/-- Witness for C1: depth 7 exceeds the maximum recursion depth, and the
shader returns the background color even though the scene is hit. -/
theorem cast_ray_background_witness :
    MAX_RECURSION_DEPTH < 7
    ∧ cast_ray exactOps Vec3.zero minusZ [sphereA] [] 7 = BACKGROUND_COLOR :=
  ⟨by decide,
    (cast_ray_background exactOps Vec3.zero minusZ [sphereA] [] 7).1 (by decide)⟩

/-- C10: `cast_ray` terminates, with recursion depth bounded by
`MAX_RECURSION_DEPTH + 2`: the recursive reflection call increments the
depth, every call at depth above `MAX_RECURSION_DEPTH` returns without
recursing, and so any fuel of at least `MAX_RECURSION_DEPTH + 2 - depth`
computes the same value as `cast_ray` itself. -/
theorem cast_ray_depth_bound (F : FloatOps) (spheres : List Sphere)
    (lights : List Light) (o d : Vec3) (depth fuel : ℕ)
    (h : MAX_RECURSION_DEPTH + 2 ≤ fuel + depth) :
    cast_ray_fuel F spheres lights fuel o d depth
      = cast_ray F o d spheres lights depth := by
  unfold cast_ray
  exact cast_ray_fuel_congr F spheres lights fuel (MAX_RECURSION_DEPTH + 2)
    o d depth h (by omega)

set_option maxRecDepth 40000 in
unseal Rat.mul Rat.add Rat.sub Rat.inv in
/-- Witness for C10: fuel 9 from depth 0 already computes `cast_ray`. -/
theorem cast_ray_depth_bound_witness :
    MAX_RECURSION_DEPTH + 2 ≤ 9 + 0
    ∧ cast_ray_fuel exactOps [sphereA] [] 9 Vec3.zero minusZ 0
        = cast_ray exactOps Vec3.zero minusZ [sphereA] [] 0 :=
  ⟨by decide,
    cast_ray_depth_bound exactOps [sphereA] [] Vec3.zero minusZ 0 9 (by decide)⟩

/-- One unfolding step of `cast_ray_fuel` at a successor fuel. -/
theorem cast_ray_fuel_succ (F : FloatOps) (spheres : List Sphere)
    (lights : List Light) (fl : ℕ) (o d : Vec3) (depth : ℕ) :
    cast_ray_fuel F spheres lights (fl + 1) o d depth =
      (let r := scene_hit F o d spheres
       if ¬ r.1 ∨ MAX_RECURSION_DEPTH < depth then BACKGROUND_COLOR
       else
         let point := r.2.1
         let n := r.2.2.1
         let material := r.2.2.2
         let reflect_direction := reflect d n
         let reflect_origin :=
           if reflect_direction.dot n < 0 then point - n * ((1 : ℚ)/1000)
           else point + n * ((1 : ℚ)/1000)
         let reflect_color :=
           cast_ray_fuel F spheres lights fl reflect_origin reflect_direction
             (depth + 1)
         let acc := lights.foldl (lightStep F spheres point n d material) (0, 0)
         material.diffuse_color * acc.1 * material.albedo.x
           + (⟨1, 1, 1⟩ : Vec3) * acc.2 * material.albedo.y
           + reflect_color * material.albedo.z) := rfl

/-- C5: on a hit within the depth bound, `cast_ray` returns exactly
`diffuseColor * diffuseIntensity * albedo[0] + white * specularIntensity
* albedo[1] + reflectColor * albedo[2]`, unclamped, where the two
intensities are the accumulated light-loop sums and `reflectColor` is the
recursive call at `depth + 1` from the epsilon-biased origin. -/
theorem cast_ray_blend (F : FloatOps) (o d : Vec3) (spheres : List Sphere)
    (lights : List Light) (depth : ℕ) (p n : Vec3) (m : Material)
    (dI sI : ℚ) (rc : Vec3)
    (hhit : scene_hit F o d spheres = (true, p, n, m))
    (hdepth : depth ≤ MAX_RECURSION_DEPTH)
    (hacc : lights.foldl (lightStep F spheres p n d m) (0, 0) = (dI, sI))
    (hrc : rc = cast_ray F
        (if (reflect d n).dot n < 0 then p - n * ((1 : ℚ)/1000)
         else p + n * ((1 : ℚ)/1000))
        (reflect d n) spheres lights (depth + 1)) :
    cast_ray F o d spheres lights depth
      = m.diffuse_color * dI * m.albedo.x + (⟨1, 1, 1⟩ : Vec3) * sI * m.albedo.y
        + rc * m.albedo.z := by
  have hfuel : cast_ray_fuel F spheres lights (MAX_RECURSION_DEPTH + 1)
      (if (reflect d n).dot n < 0 then p - n * ((1 : ℚ)/1000)
       else p + n * ((1 : ℚ)/1000))
      (reflect d n) (depth + 1)
      = cast_ray F
        (if (reflect d n).dot n < 0 then p - n * ((1 : ℚ)/1000)
         else p + n * ((1 : ℚ)/1000))
        (reflect d n) spheres lights (depth + 1) := by
    unfold cast_ray
    exact cast_ray_fuel_congr F spheres lights (MAX_RECURSION_DEPTH + 1)
      (MAX_RECURSION_DEPTH + 2) _ _ (depth + 1) (by omega) (by omega)
  show cast_ray_fuel F spheres lights (MAX_RECURSION_DEPTH + 1 + 1) o d depth
    = m.diffuse_color * dI * m.albedo.x + (⟨1, 1, 1⟩ : Vec3) * sI * m.albedo.y
      + rc * m.albedo.z
  rw [cast_ray_fuel_succ]
  simp only [hhit]
  rw [if_neg (by rintro (h | h); exacts [h trivial, absurd h (not_lt.mpr hdepth)])]
  rw [hfuel, hacc, hrc]

set_option maxRecDepth 40000 in
unseal Rat.mul Rat.add Rat.sub Rat.inv in
/-- Witness for C5: the primary ray into `sphereA` with no lights — both
intensities accumulate to 0 and the blend formula holds at depth 0. -/
theorem cast_ray_blend_witness :
    scene_hit exactOps Vec3.zero minusZ [sphereA]
      = (true, ⟨0, 0, -4⟩, ⟨0, 0, 1⟩, ivoryMaterial)
    ∧ (0 : ℕ) ≤ MAX_RECURSION_DEPTH
    ∧ cast_ray exactOps Vec3.zero minusZ [sphereA] [] 0
        = ivoryMaterial.diffuse_color * (0 : ℚ) * ivoryMaterial.albedo.x
          + (⟨1, 1, 1⟩ : Vec3) * (0 : ℚ) * ivoryMaterial.albedo.y
          + cast_ray exactOps
              (if (reflect minusZ ⟨0, 0, 1⟩).dot ⟨0, 0, 1⟩ < 0
               then (⟨0, 0, -4⟩ : Vec3) - (⟨0, 0, 1⟩ : Vec3) * ((1 : ℚ)/1000)
               else (⟨0, 0, -4⟩ : Vec3) + (⟨0, 0, 1⟩ : Vec3) * ((1 : ℚ)/1000))
              (reflect minusZ ⟨0, 0, 1⟩) [sphereA] [] (0 + 1)
            * ivoryMaterial.albedo.z :=
  ⟨by decide, by decide,
    cast_ray_blend exactOps Vec3.zero minusZ [sphereA] [] 0 ⟨0, 0, -4⟩ ⟨0, 0, 1⟩
      ivoryMaterial 0 0 _ (by decide) (by decide) rfl rfl⟩

/-- C4: inside `cast_ray`'s light loop, a light's diffuse and specular
contribution is skipped entirely — the accumulator is returned unchanged,
with no partial attenuation — if and only if the spec's occlusion
condition holds: the shadow ray from the epsilon-biased origin hits some
sphere strictly closer than the light itself.  Otherwise both
contributions are added in full. -/
theorem light_contribution_binary (F : FloatOps) (spheres : List Sphere)
    (p n d : Vec3) (m : Material) (acc : ℚ × ℚ) (light : Light) :
    lightStep F spheres p n d m acc light =
      if occludedSpec F spheres p n light then acc
      else
        (acc.1 + light.intensity
            * clamp (((light.position - p).normalize F).dot n) 0 1,
         acc.2 + F.powf
              (clamp ((reflect ((light.position - p).normalize F) n).dot d) 0 1)
              m.specular_exponent * light.intensity) := by
  by_cases h : occludedSpec F spheres p n light = true
  · rw [if_pos h]
    simp only [occludedSpec, Bool.and_eq_true, decide_eq_true_eq] at h
    simp only [lightStep]
    rw [if_pos ⟨h.1, h.2⟩]
  · rw [if_neg h]
    simp only [occludedSpec, Bool.and_eq_true, decide_eq_true_eq] at h
    simp only [lightStep]
    rw [if_neg h]

set_option maxRecDepth 40000 in
unseal Rat.mul Rat.add Rat.sub Rat.inv in
/-- C8 counterexample: for the color component 2 the product with 255 is
510, outside [0, 255]; the code stores 255 (saturation), not the
truncating (wrapping) conversion 510 mod 256 = 254.  Rust float-to-int
`as` casts saturate, so the claim of wrapping truncation is false on the
code. -/
theorem quantize_no_wrap_at_two :
    (255 : ℚ) < (2 : ℚ) * 255
    ∧ quantizeChannel 2 = 255
    ∧ (510 : ℕ) % 256 = 254
    ∧ quantizeChannel 2 ≠ 510 % 256 := by
  decide

/-- C8 amended: each 8-bit output channel is the Rust saturating
float-to-int cast of `channel * 255`: truncation toward zero inside
[0, 255], with values below 0 stored as 0 and values above 255 stored as
255 — a clamp, not a wrapping conversion. -/
theorem quantize_saturating_cast (c : ℚ) :
    (c * 255 < 0 → quantizeChannel c = 0)
    ∧ (255 < c * 255 → quantizeChannel c = 255)
    ∧ (0 ≤ c * 255 → c * 255 ≤ 255 →
        quantizeChannel c = (Rat.floor (c * 255)).toNat) := by
  refine ⟨?_, ?_, ?_⟩
  · intro h
    simp only [quantizeChannel, f64toU8]
    rw [if_pos h]
  · intro h
    simp only [quantizeChannel, f64toU8]
    rw [if_neg (not_lt.mpr (le_trans (by norm_num) (le_of_lt h)))]
    have h1 : (255 : ℤ) ≤ Rat.floor (c * 255) :=
      Rat.le_floor.mpr (by exact_mod_cast le_of_lt h)
    have h2 : (255 : ℕ) ≤ (Rat.floor (c * 255)).toNat := by omega
    exact min_eq_left h2
  · intro h0 h255
    simp only [quantizeChannel, f64toU8]
    rw [if_neg (not_lt.mpr h0)]
    have h1 : Rat.floor (c * 255) ≤ 255 := by
      by_contra hc
      push_neg at hc
      have h2 : ((256 : ℤ) : ℚ) ≤ c * 255 := Rat.le_floor.mp (by omega)
      have h3 : ((256 : ℤ) : ℚ) ≤ (255 : ℚ) := le_trans h2 h255
      norm_num at h3
    have h4 : (Rat.floor (c * 255)).toNat ≤ 255 := by omega
    exact min_eq_right h4

set_option maxRecDepth 40000 in
unseal Rat.mul Rat.add Rat.sub Rat.inv in
/-- Witness for the amended C8: at component 2 the product 510 exceeds
255 and the stored byte is the saturated 255. -/
theorem quantize_saturating_cast_witness :
    (255 : ℚ) < (2 : ℚ) * 255 ∧ quantizeChannel 2 = 255 :=
  ⟨by decide, (quantize_saturating_cast 2).2.1 (by decide)⟩

theorem writePixel_length (w : ℕ) (buf : List ℕ) (r : ℕ × ℕ × Vec3) :
    (writePixel w buf r).length = buf.length := by
  simp [writePixel]

theorem foldl_writePixel_length (w : ℕ) (L : List (ℕ × ℕ × Vec3)) (buf : List ℕ) :
    (L.foldl (writePixel w) buf).length = buf.length := by
  induction L generalizing buf with
  | nil => rfl
  | cons r L ih => rw [List.foldl_cons, ih, writePixel_length]

theorem writePixel_getElem_ne (w : ℕ) (buf : List ℕ) (r : ℕ × ℕ × Vec3) (p : ℕ)
    (h : ∀ k, k < 3 → (r.1 + r.2.1 * w) * 3 + k ≠ p) :
    (writePixel w buf r)[p]? = buf[p]? := by
  simp only [writePixel]
  rw [List.getElem?_set_ne (h 2 (by omega)),
    List.getElem?_set_ne (h 1 (by omega)),
    List.getElem?_set_ne (by simpa using h 0 (by omega))]

theorem foldl_writePixel_preserve (w : ℕ) (L : List (ℕ × ℕ × Vec3)) (buf : List ℕ)
    (p : ℕ) (h : ∀ r ∈ L, ∀ k, k < 3 → (r.1 + r.2.1 * w) * 3 + k ≠ p) :
    (L.foldl (writePixel w) buf)[p]? = buf[p]? := by
  induction L generalizing buf with
  | nil => rfl
  | cons r L ih =>
    rw [List.foldl_cons, ih _ (fun r2 h2 => h r2 (List.mem_cons_of_mem _ h2)),
      writePixel_getElem_ne w buf r p (h r (List.mem_cons_self _ _))]

theorem writePixel_getElem_self (w : ℕ) (buf : List ℕ) (i j : ℕ) (c : Vec3)
    (hlen : (i + j * w) * 3 + 2 < buf.length) :
    ((writePixel w buf (i, j, c))[(i + j * w) * 3]? = some (quantizeChannel c.x))
    ∧ ((writePixel w buf (i, j, c))[(i + j * w) * 3 + 1]?
        = some (quantizeChannel c.y))
    ∧ ((writePixel w buf (i, j, c))[(i + j * w) * 3 + 2]?
        = some (quantizeChannel c.z)) := by
  refine ⟨?_, ?_, ?_⟩
  · simp only [writePixel]
    rw [List.getElem?_set_ne (by omega), List.getElem?_set_ne (by omega),
      List.getElem?_set_self (by simpa using by omega)]
  · simp only [writePixel]
    rw [List.getElem?_set_ne (by omega),
      List.getElem?_set_self (by simpa using by omega)]
  · simp only [writePixel]
    rw [List.getElem?_set_self (by simpa using by omega)]

theorem pixel_block_ne (w i j i2 j2 : ℕ) (hi : i < w) (hi2 : i2 < w)
    (hne : i2 ≠ i ∨ j2 ≠ j) (p : ℕ)
    (hp1 : (i + j * w) * 3 ≤ p) (hp2 : p ≤ (i + j * w) * 3 + 2) :
    ∀ k, k < 3 → (i2 + j2 * w) * 3 + k ≠ p := by
  intro k hk heq
  have hw : 0 < w := lt_of_le_of_lt (Nat.zero_le i) hi
  have hpixne : i2 + j2 * w ≠ i + j * w := by
    intro hpix
    have hii : i2 = i := by
      have h1 := congrArg (· % w) hpix
      simpa [Nat.add_mul_mod_self_right, Nat.mod_eq_of_lt hi,
        Nat.mod_eq_of_lt hi2] using h1
    subst hii
    rcases hne with h | h
    · exact h rfl
    · exact h (Nat.eq_of_mul_eq_mul_right hw (Nat.add_left_cancel hpix))
  omega

theorem foldl_writePixel_away (w : ℕ) (L : List (ℕ × ℕ × Vec3)) (buf : List ℕ)
    (i j : ℕ) (hi : i < w)
    (hL : ∀ r ∈ L, r.1 < w ∧ (r.1 ≠ i ∨ r.2.1 ≠ j)) (p : ℕ)
    (hp1 : (i + j * w) * 3 ≤ p) (hp2 : p ≤ (i + j * w) * 3 + 2) :
    (L.foldl (writePixel w) buf)[p]? = buf[p]? :=
  foldl_writePixel_preserve w L buf p fun r hr k hk =>
    pixel_block_ne w i j r.1 r.2.1 hi (hL r hr).1 (hL r hr).2 p hp1 hp2 k hk

theorem range_split_at (j h : ℕ) (hj : j < h) :
    ∃ post, List.range h = List.range j ++ j :: post
      ∧ ∀ x ∈ post, j < x ∧ x < h := by
  induction h with
  | zero => omega
  | succ k ih =>
    rcases Nat.lt_succ_iff_lt_or_eq.mp hj with hlt | rfl
    · obtain ⟨post, hsplit, hpost⟩ := ih hlt
      refine ⟨post ++ [k], ?_, ?_⟩
      · rw [List.range_succ, hsplit]
        simp
      · intro x hx
        rcases List.mem_append.mp hx with hx | hx
        · exact ⟨(hpost x hx).1, Nat.lt_succ_of_lt (hpost x hx).2⟩
        · rw [List.mem_singleton.mp hx]
          exact ⟨hlt, Nat.lt_succ_self _⟩
    · refine ⟨[], ?_, by simp⟩
      rw [List.range_succ]

theorem row_tasks_split (w j : ℕ) (G : ℕ → ℕ → Vec3) (i : ℕ) (hi : i < w) :
    ∃ pre post : List (ℕ × ℕ × Vec3),
      (List.range w).map (fun i2 => (i2, j, G i2 j))
        = pre ++ (i, j, G i j) :: post
      ∧ (∀ r ∈ pre, r.1 < w ∧ r.1 ≠ i) ∧ (∀ r ∈ post, r.1 < w ∧ r.1 ≠ i) := by
  obtain ⟨postI, hI, hIb⟩ := range_split_at i w hi
  refine ⟨(List.range i).map (fun i2 => (i2, j, G i2 j)),
    postI.map (fun i2 => (i2, j, G i2 j)), ?_, ?_, ?_⟩
  · rw [hI, List.map_append, List.map_cons]
  · intro r hr
    obtain ⟨i2, hi2, rfl⟩ := List.mem_map.mp hr
    have h2 := List.mem_range.mp hi2
    exact ⟨by omega, by omega⟩
  · intro r hr
    obtain ⟨i2, hi2, rfl⟩ := List.mem_map.mp hr
    exact ⟨(hIb i2 hi2).2, by have := (hIb i2 hi2).1; omega⟩

theorem render_tasks_split (w h : ℕ) (G : ℕ → ℕ → Vec3) (i j : ℕ)
    (hi : i < w) (hj : j < h) :
    ∃ pre post : List (ℕ × ℕ × Vec3),
      (List.range h).flatMap
          (fun j2 => (List.range w).map fun i2 => (i2, j2, G i2 j2))
        = pre ++ (i, j, G i j) :: post
      ∧ (∀ r ∈ post, r.1 < w ∧ (r.1 ≠ i ∨ r.2.1 ≠ j)) := by
  obtain ⟨postJ, hJ, hJb⟩ := range_split_at j h hj
  obtain ⟨pre2, post2, hRow, hPre2, hPost2⟩ := row_tasks_split w j G i hi
  refine ⟨(List.range j).flatMap
      (fun j2 => (List.range w).map fun i2 => (i2, j2, G i2 j2)) ++ pre2,
    post2 ++ postJ.flatMap
      (fun j2 => (List.range w).map fun i2 => (i2, j2, G i2 j2)), ?_, ?_⟩
  · rw [hJ, List.flatMap_append, List.flatMap_cons]
    simp only [hRow]
    simp [List.append_assoc]
  · intro r hr
    rcases List.mem_append.mp hr with hr | hr
    · exact ⟨(hPost2 r hr).1, Or.inl (hPost2 r hr).2⟩
    · obtain ⟨j2, hj2, hr2⟩ := List.mem_flatMap.mp hr
      obtain ⟨i2, hi2, rfl⟩ := List.mem_map.mp hr2
      exact ⟨List.mem_range.mp hi2,
        Or.inr (show j2 ≠ j by have := (hJb j2 hj2).1; omega)⟩

theorem render_fold_get (w h : ℕ) (G : ℕ → ℕ → Vec3) (i j : ℕ)
    (hi : i < w) (hj : j < h) :
    ((((List.range h).flatMap
          (fun j2 => (List.range w).map fun i2 => (i2, j2, G i2 j2))).foldl
        (writePixel w) (List.replicate (w * h * 3) 0))[(i + j * w) * 3]?
      = some (quantizeChannel (G i j).x))
    ∧ ((((List.range h).flatMap
          (fun j2 => (List.range w).map fun i2 => (i2, j2, G i2 j2))).foldl
        (writePixel w) (List.replicate (w * h * 3) 0))[(i + j * w) * 3 + 1]?
      = some (quantizeChannel (G i j).y))
    ∧ ((((List.range h).flatMap
          (fun j2 => (List.range w).map fun i2 => (i2, j2, G i2 j2))).foldl
        (writePixel w) (List.replicate (w * h * 3) 0))[(i + j * w) * 3 + 2]?
      = some (quantizeChannel (G i j).z)) := by
  obtain ⟨pre, post, hsplit, hpost⟩ := render_tasks_split w h G i j hi hj
  rw [hsplit, List.foldl_append, List.foldl_cons]
  have hpixlt : i + j * w < w * h := by
    calc i + j * w < w + j * w := by omega
    _ = (j + 1) * w := by ring
    _ ≤ h * w := Nat.mul_le_mul_right w (by omega)
    _ = w * h := Nat.mul_comm h w
  have hlen2 : (i + j * w) * 3 + 2
      < (List.foldl (writePixel w) (List.replicate (w * h * 3) 0) pre).length := by
    rw [foldl_writePixel_length, List.length_replicate]
    omega
  refine ⟨?_, ?_, ?_⟩
  · exact Eq.trans
      (foldl_writePixel_away w post _ i j hi hpost _ (le_refl _) (by omega))
      (writePixel_getElem_self w _ i j (G i j) hlen2).1
  · exact Eq.trans
      (foldl_writePixel_away w post _ i j hi hpost _ (by omega) (by omega))
      (writePixel_getElem_self w _ i j (G i j) hlen2).2.1
  · exact Eq.trans
      (foldl_writePixel_away w post _ i j hi hpost _ (by omega) (by omega))
      (writePixel_getElem_self w _ i j (G i j) hlen2).2.2

/-- C6: for any pixel `(i, j)` inside the image, the rendered buffer
holds, at the three bytes of row-major position `j*width + i`, the
quantized channels of `cast_ray` invoked at depth 0 from the coordinate
origin along `normalize(Vector3(x, y, -1))`, with `x` and `y` the
camera-plane coordinates of `camDirection` (built from `tan(fov/2)` and
the aspect ratio exactly as the claim's formula states).  The hypotheses
`i < width`, `j < height` imply `width > 0 < height`; the statement holds
for every `fov`, which covers the claim's `(0, π)` range. -/
theorem render_pixel_formula (F : FloatOps) (w h : ℕ) (fov : ℚ)
    (spheres : List Sphere) (lights : List Light) (i j : ℕ)
    (hi : i < w) (hj : j < h) :
    ((render F w h fov spheres lights)[(j * w + i) * 3]?
      = some (quantizeChannel (cast_ray F Vec3.zero
          (camDirection F w h fov i j) spheres lights 0).x))
    ∧ ((render F w h fov spheres lights)[(j * w + i) * 3 + 1]?
      = some (quantizeChannel (cast_ray F Vec3.zero
          (camDirection F w h fov i j) spheres lights 0).y))
    ∧ ((render F w h fov spheres lights)[(j * w + i) * 3 + 2]?
      = some (quantizeChannel (cast_ray F Vec3.zero
          (camDirection F w h fov i j) spheres lights 0).z)) := by
  have hcomm : j * w + i = i + j * w := by omega
  rw [hcomm]
  exact render_fold_get w h
    (fun i2 j2 => cast_ray F Vec3.zero (camDirection F w h fov i2 j2) spheres lights 0)
    i j hi hj

set_option maxRecDepth 40000 in
unseal Rat.mul Rat.add Rat.sub Rat.inv in
/-- Witness for C6: a 1×1 image over the empty scene. -/
theorem render_pixel_formula_witness :
    (0 : ℕ) < 1
    ∧ (((render exactOps 1 1 0 [] [])[(0 * 1 + 0) * 3]?
        = some (quantizeChannel (cast_ray exactOps Vec3.zero
            (camDirection exactOps 1 1 0 0 0) [] [] 0).x))
      ∧ ((render exactOps 1 1 0 [] [])[(0 * 1 + 0) * 3 + 1]?
        = some (quantizeChannel (cast_ray exactOps Vec3.zero
            (camDirection exactOps 1 1 0 0 0) [] [] 0).y))
      ∧ ((render exactOps 1 1 0 [] [])[(0 * 1 + 0) * 3 + 2]?
        = some (quantizeChannel (cast_ray exactOps Vec3.zero
            (camDirection exactOps 1 1 0 0 0) [] [] 0).z))) :=
  ⟨by decide, render_pixel_formula exactOps 1 1 0 [] [] 0 0 (by decide) (by decide)⟩
